import Mathlib

/-!
Verification of the date/time interpretation and event-interval resolution
engine of the CSV-to-ICS converter (src/events.ts). The development is a
shallow embedding: timestamps are integer second counts relative to the Unix
epoch (timezone-naive, matching the local wall-clock Date values the source
manipulates), the platform Date object is modelled by proleptic Gregorian
calendar arithmetic, parseInt and the anchored regular expressions are
modelled by structural functions on character lists, and every fallible
source function returns Except with the exact thrown message.
-/

deriving instance DecidableEq for Except


/-! Calendar arithmetic: a model of the JavaScript Date object used by the
program. A timestamp is a count of seconds relative to the Unix epoch
(1970-01-01T00:00:00), timezone-naive. Civil-date conversion follows the
proleptic Gregorian calendar via an era / century / quadrennium / year
decomposition. Note that / and % on Int are euclidean division, whose
remainder is nonnegative for our positive constant divisors. -/

/-- Day-of-era components: century index within a 400-year era. -/
def doeC (doe : Nat) : Nat := min (doe / 36524) 3

/-- Day within the century. -/
def doeDoc (doe : Nat) : Nat := doe - 36524 * doeC doe

/-- Quadrennium index within the century. -/
def doeQ (doe : Nat) : Nat := min (doeDoc doe / 1461) 24

/-- Day within the quadrennium. -/
def doeDoq (doe : Nat) : Nat := doeDoc doe - 1461 * doeQ doe

/-- Year index within the quadrennium. -/
def doeR (doe : Nat) : Nat := min (doeDoq doe / 365) 3

/-- Day of the (March-based) year. -/
def doeDoy (doe : Nat) : Nat := doeDoq doe - 365 * doeR doe

/-- Year of era, in the range 0..399. -/
def doeYoe (doe : Nat) : Nat := 100 * doeC doe + 4 * doeQ doe + doeR doe

/-- March-based month index 0..11 (0 = March). -/
def doeMp (doe : Nat) : Nat := (5 * doeDoy doe + 2) / 153

/-- Day count from 1 March of year 0 of the era to 1 March of year yoe. -/
def sdays (yoe : Nat) : Nat := 365 * yoe + yoe / 4 - yoe / 100

/-- Day count from 1 March to the start of March-based month mp. -/
def monthOffset (mp : Nat) : Nat := (153 * mp + 2) / 5

/-- Civil day of month, 1..31. -/
def doeDay (doe : Nat) : Nat := doeDoy doe - monthOffset (doeMp doe) + 1

/-- Civil month, 1..12. -/
def doeMonth (doe : Nat) : Nat := if doeMp doe < 10 then doeMp doe + 3 else doeMp doe - 9

/-- Era of a Gregorian day number (days since 1970-01-01). -/
def eraOfZ (z : Int) : Int := (z + 719468) / 146097

/-- Day of era of a Gregorian day number. -/
def doeOfZ (z : Int) : Nat := ((z + 719468) % 146097).toNat

/-- Civil year of a day number. -/
def cfdYear (z : Int) : Int :=
  (doeYoe (doeOfZ z) : Int) + eraOfZ z * 400 + (if doeMonth (doeOfZ z) ≤ 2 then 1 else 0)

/-- Civil month (1..12) of a day number. -/
def cfdMonth (z : Int) : Int := (doeMonth (doeOfZ z) : Int)

/-- Civil day of month (1..31) of a day number. -/
def cfdDay (z : Int) : Int := (doeDay (doeOfZ z) : Int)

/-- Day number (days since 1970-01-01) of a civil date; month is 1-based and
expected in 1..12, while the day may lie outside 1..31 (it is added linearly,
exactly like the JavaScript Date constructor normalizes day overflow). -/
def daysFromCivil (y m d : Int) : Int :=
  let yAdj := if m ≤ 2 then y - 1 else y
  let era := yAdj / 400
  let yoe := (yAdj - era * 400).toNat
  let mp := (if m ≤ 2 then m + 9 else m - 3).toNat
  era * 146097 + ((sdays yoe + monthOffset mp : Nat) : Int) + (d - 1) - 719468

/-- Day number as computed by the JavaScript Date constructor: the month is
0-based and may lie outside 0..11; it is normalized into the year. -/
def jsDayNumber (year month day : Int) : Int :=
  let ym := year * 12 + month
  daysFromCivil (ym / 12) (ym % 12 + 1) day

/-- Timestamp (seconds since epoch) of broken-down local components, exactly
as the JavaScript Date constructor combines them (each field is added
linearly, so out-of-range fields roll over). -/
def tsOf (year month day hours minutes seconds : Int) : Int :=
  jsDayNumber year month day * 86400 + hours * 3600 + minutes * 60 + seconds

/-- The JavaScript Date constructor maps year arguments 0..99 to 1900..1999. -/
def jsYearAdjust (y : Int) : Int := if 0 ≤ y ∧ y ≤ 99 then y + 1900 else y

/-- A timestamp is representable iff its millisecond count has magnitude at
most 8.64e15 (so 8.64e12 seconds); otherwise the Date is invalid. -/
def validTs (t : Int) : Bool := decide (t.natAbs ≤ 8640000000000)

/-- Build a Date value from a timestamp; none models an invalid Date. -/
def mkTs (t : Int) : Option Int := if validTs t then some t else none

/-- Model of the JavaScript Date(year, month, day, hours, minutes, seconds)
constructor; the result is the normalized timestamp, or none if it falls
outside the representable range. -/
def mkDateC (y mo d h mi s : Int) : Option Int := mkTs (tsOf (jsYearAdjust y) mo d h mi s)

/-- Model of Date.prototype.getFullYear on a valid Date. -/
def getFullYear (t : Int) : Int := cfdYear (t / 86400)

/-- Model of Date.prototype.getMonth (0-based month) on a valid Date. -/
def getMonth (t : Int) : Int := cfdMonth (t / 86400) - 1

/-- Model of Date.prototype.getDate (day of month) on a valid Date. -/
def getDate (t : Int) : Int := cfdDay (t / 86400)

/-! String parsing layer: models of the regular expressions and parseInt
calls in src/events.ts. -/

/-- Numeric value of a decimal digit character. -/
def digitVal (c : Char) : Nat := c.toNat - 48

/-- Value of a two-digit group. -/
def val2 (a b : Char) : Nat := 10 * digitVal a + digitVal b

/-- Value of a four-digit group. -/
def val4 (a b c d : Char) : Nat :=
  1000 * digitVal a + 100 * digitVal b + 10 * digitVal c + digitVal d

/-- Value of the leading run of decimal digits, if nonempty. -/
def leadingDigitsVal (cs : List Char) : Option Nat :=
  match cs.takeWhile Char.isDigit with
  | [] => none
  | ds => some (ds.foldl (fun a c => 10 * a + digitVal c) 0)

/-- Model of the JavaScript parseInt(s, 10): skip leading whitespace, read an
optional sign and then the longest digit run; none models NaN. (JavaScript
returns a float and so loses precision on very long digit runs; the inputs
relevant here are far below that threshold, so the model keeps exact
integers.) -/
def jsParseInt (s : String) : Option Int :=
  match s.data.dropWhile Char.isWhitespace with
  | '-' :: rest => (leadingDigitsVal rest).map (fun n => -(n : Int))
  | '+' :: rest => (leadingDigitsVal rest).map (fun n => (n : Int))
  | cs => (leadingDigitsVal cs).map (fun n => (n : Int))

/-- Model of the regular expression timeRegex = HH:MM or HH:MM:SS (exactly
two digits per group, anchored at both ends). -/
def timeRegexTest (s : String) : Bool :=
  match s.data with
  | [h1, h2, ':', m1, m2] => h1.isDigit && h2.isDigit && m1.isDigit && m2.isDigit
  | [h1, h2, ':', m1, m2, ':', s1, s2] =>
      h1.isDigit && h2.isDigit && m1.isDigit && m2.isDigit && s1.isDigit && s2.isDigit
  | _ => false

/-- Model of the anchored regular expression (dddd)-(dd)-(dd), returning the
three numeric groups. -/
def matchDashYMD (s : String) : Option (Nat × Nat × Nat) :=
  match s.data with
  | [y1, y2, y3, y4, '-', m1, m2, '-', d1, d2] =>
    if y1.isDigit ∧ y2.isDigit ∧ y3.isDigit ∧ y4.isDigit ∧ m1.isDigit ∧ m2.isDigit ∧
        d1.isDigit ∧ d2.isDigit
    then some (val4 y1 y2 y3 y4, val2 m1 m2, val2 d1 d2) else none
  | _ => none

/-- Model of the anchored regular expression (dddd)/(d or dd)/(d or dd),
returning the three numeric groups. -/
def matchSlashYMD (s : String) : Option (Nat × Nat × Nat) :=
  match s.data with
  | [y1, y2, y3, y4, '/', m1, '/', d1] =>
    if y1.isDigit ∧ y2.isDigit ∧ y3.isDigit ∧ y4.isDigit ∧ m1.isDigit ∧ d1.isDigit
    then some (val4 y1 y2 y3 y4, digitVal m1, digitVal d1) else none
  | [y1, y2, y3, y4, '/', m1, '/', d1, d2] =>
    if y1.isDigit ∧ y2.isDigit ∧ y3.isDigit ∧ y4.isDigit ∧ m1.isDigit ∧ d1.isDigit ∧ d2.isDigit
    then some (val4 y1 y2 y3 y4, digitVal m1, val2 d1 d2) else none
  | [y1, y2, y3, y4, '/', m1, m2, '/', d1] =>
    if y1.isDigit ∧ y2.isDigit ∧ y3.isDigit ∧ y4.isDigit ∧ m1.isDigit ∧ m2.isDigit ∧ d1.isDigit
    then some (val4 y1 y2 y3 y4, val2 m1 m2, digitVal d1) else none
  | [y1, y2, y3, y4, '/', m1, m2, '/', d1, d2] =>
    if y1.isDigit ∧ y2.isDigit ∧ y3.isDigit ∧ y4.isDigit ∧ m1.isDigit ∧ m2.isDigit ∧
        d1.isDigit ∧ d2.isDigit
    then some (val4 y1 y2 y3 y4, val2 m1 m2, val2 d1 d2) else none
  | _ => none

/-- Model of the anchored regular expression (d or dd)/(d or dd)/(dddd),
returning the three numeric groups in input order. -/
def matchSlashDMY (s : String) : Option (Nat × Nat × Nat) :=
  match s.data with
  | [a1, '/', b1, '/', y1, y2, y3, y4] =>
    if a1.isDigit ∧ b1.isDigit ∧ y1.isDigit ∧ y2.isDigit ∧ y3.isDigit ∧ y4.isDigit
    then some (digitVal a1, digitVal b1, val4 y1 y2 y3 y4) else none
  | [a1, '/', b1, b2, '/', y1, y2, y3, y4] =>
    if a1.isDigit ∧ b1.isDigit ∧ b2.isDigit ∧ y1.isDigit ∧ y2.isDigit ∧ y3.isDigit ∧ y4.isDigit
    then some (digitVal a1, val2 b1 b2, val4 y1 y2 y3 y4) else none
  | [a1, a2, '/', b1, '/', y1, y2, y3, y4] =>
    if a1.isDigit ∧ a2.isDigit ∧ b1.isDigit ∧ y1.isDigit ∧ y2.isDigit ∧ y3.isDigit ∧ y4.isDigit
    then some (val2 a1 a2, digitVal b1, val4 y1 y2 y3 y4) else none
  | [a1, a2, '/', b1, b2, '/', y1, y2, y3, y4] =>
    if a1.isDigit ∧ a2.isDigit ∧ b1.isDigit ∧ b2.isDigit ∧ y1.isDigit ∧ y2.isDigit ∧
        y3.isDigit ∧ y4.isDigit
    then some (val2 a1 a2, val2 b1 b2, val4 y1 y2 y3 y4) else none
  | _ => none

/-- A parsed calendar date, as returned by parseFlexibleDate: year, 0-based
month, day. -/
structure CalDate where
  year : Int
  month : Int
  day : Int
deriving DecidableEq

/-- Model of parseFlexibleDate from src/events.ts: tries the three shapes in
source order; the dashed shape is not range checked, the two slash shapes
check month (0..11 after conversion) and day (1..31); slash-separated
day-first versus month-first is disambiguated by the source heuristic. -/
def parseFlexibleDate (dateStr : String) : Except String CalDate :=
  match matchDashYMD dateStr with
  | some (y, mo, d) => .ok ⟨(y : Int), (mo : Int) - 1, (d : Int)⟩
  | none =>
  match matchSlashYMD dateStr with
  | some (y, mo, d) =>
    if (mo : Int) - 1 < 0 ∨ 11 < (mo : Int) - 1 ∨ (d : Int) < 1 ∨ 31 < (d : Int) then
      .error ("Invalid month or day value in date: \"" ++ dateStr ++ "\"")
    else .ok ⟨(y : Int), (mo : Int) - 1, (d : Int)⟩
  | none =>
  match matchSlashDMY dateStr with
  | some (mm, dd, yyyy) =>
    let ymd : Int × Int × Int :=
      if 12 < mm ∧ dd ≤ 12 then ((yyyy : Int), (dd : Int) - 1, (mm : Int))
      else ((yyyy : Int), (mm : Int) - 1, (dd : Int))
    if ymd.2.1 < 0 ∨ 11 < ymd.2.1 ∨ ymd.2.2 < 1 ∨ 31 < ymd.2.2 then
      .error ("Invalid month or day value in date: \"" ++ dateStr ++ "\"")
    else .ok ⟨ymd.1, ymd.2.1, ymd.2.2⟩
  | none =>
    .error ("Unsupported date format: \"" ++ dateStr ++
      "\". Expected YYYY-MM-DD, MM/DD/YYYY, DD/MM/YYYY, or YYYY/MM/DD.")

/-! Event resolution layer: models of setEventStart and setEventEnd from
src/events.ts. Errors carry the exact thrown message; a Date value is an
optional timestamp, none standing for an invalid Date. -/

/-- Split a character list at colons; agrees with the JavaScript
String.prototype.split(":") (an empty string yields one empty part). -/
def splitColon : List Char → List (List Char)
  | [] => [[]]
  | c :: rest =>
    match splitColon rest with
    | [] => [[c]]
    | h :: t => if c = ':' then [] :: h :: t else (c :: h) :: t

/-- Core of jsParseInt on a character list. -/
def jsParseIntL (cs0 : List Char) : Option Int :=
  match cs0.dropWhile Char.isWhitespace with
  | '-' :: rest => (leadingDigitsVal rest).map (fun n => -(n : Int))
  | '+' :: rest => (leadingDigitsVal rest).map (fun n => (n : Int))
  | cs => (leadingDigitsVal cs).map (fun n => (n : Int))

/-- All characters are whitespace; equivalent to the JavaScript test
s.trim() === "". -/
def allWhitespace (s : String) : Bool := s.data.all Char.isWhitespace

/-- Time components exactly as the source obtains them: split on colon and
parseInt each part, the third part defaulting to the string 00. -/
def parseTimeComponents (s : String) : Option Int × Option Int × Option Int :=
  let parts := splitColon s.data
  (jsParseIntL (parts.getD 0 []), jsParseIntL (parts.getD 1 []), jsParseIntL (parts.getD 2 ['0', '0']))

/-- The source check isNaN(h) or h out of 0..23 or m, s out of 0..59. -/
def timeCompInvalid (h mi s : Option Int) : Bool :=
  match h, mi, s with
  | some hv, some mv, some sv =>
    decide (hv < 0) || decide (23 < hv) || decide (mv < 0) || decide (59 < mv) ||
      decide (sv < 0) || decide (59 < sv)
  | _, _, _ => true

/-- Model of setEventStart(startDateStr, startTimeStr, isAllDay) from
src/events.ts (second revision, the one with the isAllDay parameter). -/
def setEventStart (startDateStr startTimeStr : String) (isAllDay : Bool) :
    Except String (Option Int) :=
  if startDateStr = "" then .error "\x27Start Date\x27 cannot be empty or null."
  else
    match parseFlexibleDate startDateStr with
    | .error m => .error ("Error parsing \x27Start Date\x27 format: " ++ m)
    | .ok c =>
      if isAllDay then
        match mkDateC c.year c.month c.day 0 0 0 with
        | none => .error ("Date components form an invalid date for All Day event (e.g., Feb 30th): "
            ++ startDateStr)
        | some t => .ok (some t)
      else
        if timeRegexTest startTimeStr = false then
          .error ("\x27Start Time\x27 format is invalid: \"" ++ startTimeStr ++
            "\". Expected HH:MM or HH:MM:SS, or \"All day\".")
        else
          match parseTimeComponents startTimeStr with
          | (h, mi, sec) =>
            if timeCompInvalid h mi sec then
              .error ("Invalid time components in \x27" ++ startTimeStr ++ "\x27.")
            else
              .ok (mkDateC c.year c.month c.day (h.getD 0) (mi.getD 0) (sec.getD 0))

/-- The end date components used by setEventEnd: taken from the start
instant when the end date field is blank but an end time is present,
otherwise parsed from the end date field. -/
def endYmd (endDateStr endTimeStr : String) (s : Int) : Except String (Int × Int × Int) :=
  if allWhitespace endDateStr ∧ endTimeStr ≠ "" then
    .ok (getFullYear s, getMonth s, getDate s)
  else
    match parseFlexibleDate endDateStr with
    | .error m => .error ("Error parsing \x27End Date\x27 format: " ++ m)
    | .ok c => .ok (c.year, c.month, c.day)

/-- The branch cascade of setEventEnd once the end date components are in
hand. Branches appear in source order; thrown messages include the wrapping
prefixes added by the try/catch blocks. -/
def setEventEndBranches (endDateStr endTimeStr : String) (s : Int) (isAllDayEvent : Bool)
    (y mo d : Int) : Except String (Option Int) :=
  if isAllDayEvent ∧ endDateStr ≠ "" then
    .ok (mkDateC y mo (d + 1) 0 0 0)
  else if endTimeStr ≠ "" ∧ timeRegexTest endTimeStr then
    match parseTimeComponents endTimeStr with
    | (h, mi, sec) =>
      if timeCompInvalid h mi sec then
        .error ("Invalid time components in \x27" ++ endTimeStr ++ "\x27.")
      else
        match mkDateC y mo d (h.getD 0) (mi.getD 0) (sec.getD 0) with
        | none => .error ("Error processing explicit end date and time: Date components form an invalid end date (e.g., Feb 30th): "
            ++ endDateStr ++ " " ++ endTimeStr)
        | some t =>
          if t < s then
            .error "Error processing explicit end date and time: End date and time cannot be before the start date and time."
          else .ok (some t)
  else if endDateStr ≠ "" ∧ timeRegexTest endTimeStr = false then
    if (jsParseInt endTimeStr).getD 0 < 0 then
      .error ("Invalid duration value from \x27End Time\x27 (" ++ endTimeStr ++
        "). Must be a non-negative number of minutes.")
    else
      match mkDateC y mo d 0 ((jsParseInt endTimeStr).getD 0) 0 with
      | none => .ok none
      | some t =>
        if t < s then
          .error "Error processing end date without time: End date and time cannot be before the start date and time."
        else .ok (some t)
  else if endDateStr = "" ∧ endTimeStr ≠ "" ∧ timeRegexTest endTimeStr = false then
    match jsParseInt endTimeStr with
    | none => .ok none
    | some v =>
      if v < 0 then
        .error ("Invalid duration value from \x27End Time\x27 (" ++ endTimeStr ++
          "). Must be a non-negative number of minutes.")
      else .ok (mkTs (s + v * 60))
  else
    .ok (mkTs (s + 60 * 60))

/-- Model of setEventEnd(endDateStr, endTimeStr, start, isAllDayEvent) from
src/events.ts (second revision). -/
def setEventEnd (endDateStr endTimeStr : String) (start : Option Int) (isAllDayEvent : Bool) :
    Except String (Option Int) :=
  match start with
  | none => .error "The \x27start\x27 parameter must be a valid Date object."
  | some s =>
    if isAllDayEvent ∧ endDateStr = "" ∧ endTimeStr = "" then
      .ok (mkDateC (getFullYear s) (getMonth s) (getDate s + 1) 0 0 0)
    else
      match endYmd endDateStr endTimeStr s with
      | .error m => .error m
      | .ok (y, mo, d) => setEventEndBranches endDateStr endTimeStr s isAllDayEvent y mo d

/-! Batch layer: model of generateEvents from src/events.ts. Timezone
validity is platform data (the source consults Intl.DateTimeFormat), so the
model is parameterized by a validity predicate tzValid; the platform
diagnostic appended to the timezone error message is likewise abstracted
away. The ICalEvent construction is an external collaborator and is modelled
as plain record assembly. -/

/-- One CSV row; field names follow the source interface CsvRow (an empty
string models a missing optional field). -/
structure CsvRow where
  subject : String
  startDate : String
  startTime : String
  endDate : String
  endTime : String
  timeZone : String
  description : String
  reminderTime : String
  uid : String
  categories : String
  location : String
  status : String
  url : String
  alarms : String

/-- The event descriptor passed to the calendar library. -/
structure IcsEvent where
  start : Option Int
  eventEnd : Option Int
  summary : String
  description : String
  id : Option String
  timezone : Option String
  allDay : Bool
  categories : Option (List String)
  location : String
  url : String

/-- Message raised by validateTimezone for an invalid identifier (the
platform diagnostic that the source appends is abstracted away). -/
def validateTimezoneMsg (tz : String) : String :=
  "The timezone \"" ++ tz ++ "\" is not a valid IANA Time Zone identifier."

/-- The body of the per-row try block of generateEvents: compute the all-day
flag, resolve start and end, validate the timezone if present, and assemble
the event descriptor. -/
def processRow (tzValid : String → Bool) (row : CsvRow) : Except String IcsEvent :=
  let isAllDay : Bool := decide (row.startTime.toLower = "all day") ||
    allWhitespace row.startTime || decide (row.endTime.toLower = "all day")
  match setEventStart row.startDate row.startTime isAllDay with
  | .error m => .error m
  | .ok start =>
    match setEventEnd row.endDate row.endTime start isAllDay with
    | .error m => .error m
    | .ok e =>
      if row.timeZone ≠ "" ∧ tzValid row.timeZone = false then
        .error (validateTimezoneMsg row.timeZone)
      else
        .ok { start := start, eventEnd := e, summary := row.subject,
              description := row.description,
              id := if row.uid = "" then none else some row.uid,
              timezone := if row.timeZone = "" then none else some row.timeZone,
              allDay := isAllDay,
              categories := if row.categories = "" then none
                            else some (row.categories.splitOn " "),
              location := row.location, url := row.url }

/-- Diagnostic written for a failing row, with its 1-based index. -/
def rowDiag (i : Nat) (row : CsvRow) (msg : String) : String :=
  "Error processing row " ++ toString i ++ " (Subject: \"" ++ row.subject ++ "\"): " ++ msg

/-- The loop of generateEvents: i is the 1-based index of the first row of
the remaining list; a failing row contributes a diagnostic and is skipped. -/
def generateEventsAux (tzValid : String → Bool) (i : Nat) :
    List CsvRow → List IcsEvent × List String
  | [] => ([], [])
  | row :: rest =>
    let r := generateEventsAux tzValid (i + 1) rest
    match processRow tzValid row with
    | .ok e => (e :: r.1, r.2)
    | .error m => (r.1, rowDiag i row m :: r.2)

/-- Model of generateEvents: the resolved events in row order together with
the diagnostics written to the error channel. -/
def generateEvents (tzValid : String → Bool) (rows : List CsvRow) :
    List IcsEvent × List String :=
  generateEventsAux tzValid 1 rows

/-- The failing rows with their 1-based indices and error messages. -/
def rowFailures (tzValid : String → Bool) : Nat → List CsvRow → List (Nat × CsvRow × String)
  | _, [] => []
  | i, row :: rest =>
    match processRow tzValid row with
    | .ok _ => rowFailures tzValid (i + 1) rest
    | .error m => (i, row, m) :: rowFailures tzValid (i + 1) rest

theorem doeOfZ_lt (z : Int) : doeOfZ z < 146097 := by
  unfold doeOfZ; omega

theorem doeOfZ_era (z : Int) : (doeOfZ z : Int) + eraOfZ z * 146097 = z + 719468 := by
  unfold doeOfZ eraOfZ; omega

theorem hC (doe : Nat) (h : doe < 146097) :
    doeC doe ≤ 3 ∧ 36524 * doeC doe ≤ doe ∧ doeDoc doe ≤ 36524 := by
  unfold doeDoc doeC; omega

theorem hQ (doe : Nat) (h : doe < 146097) :
    doeQ doe ≤ 24 ∧ 1461 * doeQ doe ≤ doeDoc doe ∧ doeDoq doe ≤ 1460 := by
  have := hC doe h
  unfold doeDoq doeQ; omega

theorem hR (doe : Nat) (h : doe < 146097) :
    doeR doe ≤ 3 ∧ 365 * doeR doe ≤ doeDoq doe ∧ doeDoy doe ≤ 365 := by
  have := hQ doe h
  unfold doeDoy doeR; omega

theorem hYoe (doe : Nat) (h : doe < 146097) : doeYoe doe < 400 := by
  have := hC doe h
  have := hQ doe h
  have := hR doe h
  unfold doeYoe; omega

theorem hS (doe : Nat) (h : doe < 146097) : sdays (doeYoe doe) + doeDoy doe = doe := by
  have hc := hC doe h
  have hq := hQ doe h
  have hr := hR doe h
  have e1 : doeDoc doe = doe - 36524 * doeC doe := rfl
  have e2 : doeDoq doe = doeDoc doe - 1461 * doeQ doe := rfl
  have e3 : doeDoy doe = doeDoq doe - 365 * doeR doe := rfl
  have e4 : doeYoe doe = 100 * doeC doe + 4 * doeQ doe + doeR doe := rfl
  unfold sdays
  rw [e4]
  have h4 : (100 * doeC doe + 4 * doeQ doe + doeR doe) / 4 = 25 * doeC doe + doeQ doe := by omega
  have h100 : (100 * doeC doe + 4 * doeQ doe + doeR doe) / 100 = doeC doe := by omega
  omega

theorem hMp (doe : Nat) (h : doe < 146097) :
    doeMp doe < 12 ∧ monthOffset (doeMp doe) ≤ doeDoy doe := by
  have := hR doe h
  unfold doeMp monthOffset; omega

theorem hMonth (doe : Nat) (h : doe < 146097) :
    1 ≤ doeMonth doe ∧ doeMonth doe ≤ 12 ∧
      (if doeMonth doe ≤ 2 then doeMonth doe + 9 else doeMonth doe - 3) = doeMp doe := by
  have := hMp doe h
  unfold doeMonth
  split <;> split <;> omega

theorem hDay (doe : Nat) (h : doe < 146097) :
    1 ≤ doeDay doe ∧ monthOffset (doeMp doe) + (doeDay doe - 1) = doeDoy doe := by
  have := hMp doe h
  unfold doeDay; omega

/-- Reconstruction lemma for daysFromCivil on in-range components. -/
theorem daysFromCivil_reconstruct (era : Int) (yoe m d mp : Nat)
    (hyoe : yoe < 400) (hm1 : 1 ≤ m) (hm2 : m ≤ 12)
    (hmp : (if m ≤ 2 then m + 9 else m - 3) = mp) (hd : 1 ≤ d) :
    daysFromCivil ((yoe : Int) + era * 400 + (if m ≤ 2 then 1 else 0)) (m : Int) (d : Int)
      = era * 146097 + ((sdays yoe + monthOffset mp : Nat) : Int) + ((d : Int) - 1) - 719468 := by
  simp only [daysFromCivil]
  by_cases hm2c : m ≤ 2
  · have hm2i : ((m : Int) ≤ 2) := by omega
    rw [if_pos hm2c] at hmp
    rw [if_pos hm2i, if_pos hm2c]
    have hy1 : ((yoe : Int) + era * 400 + 1 - 1) = (yoe : Int) + era * 400 := by ring
    rw [hy1]
    have hera : ((yoe : Int) + era * 400) / 400 = era := by omega
    rw [hera]
    have hyoe2 : ((yoe : Int) + era * 400 - era * 400).toNat = yoe := by omega
    rw [hyoe2]
    rw [if_pos hm2i]
    have hmp2 : ((m : Int) + 9).toNat = mp := by omega
    rw [hmp2]
  · have hm2i : ¬((m : Int) ≤ 2) := by omega
    rw [if_neg hm2c] at hmp
    rw [if_neg hm2i, if_neg hm2c]
    have hy1 : ((yoe : Int) + era * 400 + 0) = (yoe : Int) + era * 400 := by ring
    rw [hy1]
    have hera : ((yoe : Int) + era * 400) / 400 = era := by omega
    rw [hera]
    have hyoe2 : ((yoe : Int) + era * 400 - era * 400).toNat = yoe := by omega
    rw [hyoe2]
    rw [if_neg hm2i]
    have hmp2 : ((m : Int) - 3).toNat = mp := by omega
    rw [hmp2]

/-- Round trip: converting a day number to its civil date and back is the
identity. -/
theorem civil_roundtrip (z : Int) : daysFromCivil (cfdYear z) (cfdMonth z) (cfdDay z) = z := by
  have hlt := doeOfZ_lt z
  have hze := doeOfZ_era z
  obtain ⟨hm1, hm2, hmp⟩ := hMonth (doeOfZ z) hlt
  have hyoe := hYoe (doeOfZ z) hlt
  obtain ⟨hd1, hd2⟩ := hDay (doeOfZ z) hlt
  have hs := hS (doeOfZ z) hlt
  obtain ⟨hmpa, hmpb⟩ := hMp (doeOfZ z) hlt
  unfold cfdYear cfdMonth cfdDay
  rw [daysFromCivil_reconstruct (eraOfZ z) (doeYoe (doeOfZ z)) (doeMonth (doeOfZ z))
    (doeDay (doeOfZ z)) (doeMp (doeOfZ z)) hyoe hm1 hm2 hmp hd1]
  omega

theorem cfdMonth_bounds (z : Int) : 1 ≤ cfdMonth z ∧ cfdMonth z ≤ 12 := by
  obtain ⟨h1, h2, -⟩ := hMonth (doeOfZ z) (doeOfZ_lt z)
  unfold cfdMonth; omega

theorem cfdDay_pos (z : Int) : 1 ≤ cfdDay z := by
  obtain ⟨h1, -⟩ := hDay (doeOfZ z) (doeOfZ_lt z)
  unfold cfdDay; omega

theorem jsDayNumber_cfd (z : Int) : jsDayNumber (cfdYear z) (cfdMonth z - 1) (cfdDay z) = z := by
  obtain ⟨hm1, hm2⟩ := cfdMonth_bounds z
  simp only [jsDayNumber]
  have h1 : (cfdYear z * 12 + (cfdMonth z - 1)) / 12 = cfdYear z := by omega
  have h2 : (cfdYear z * 12 + (cfdMonth z - 1)) % 12 + 1 = cfdMonth z := by omega
  rw [h1, h2]
  exact civil_roundtrip z

theorem jsDayNumber_day (y m d : Int) : jsDayNumber y m (d + 1) = jsDayNumber y m d + 1 := by
  simp only [jsDayNumber, daysFromCivil]
  ring

theorem daysFromCivil_lb (y m d : Int) (hy : 1900 ≤ y) (hd : 1 ≤ d) :
    -135080 ≤ daysFromCivil y m d := by
  simp only [daysFromCivil]
  by_cases hm : m ≤ 2
  · rw [if_pos hm, if_pos hm]
    have hera : 4 ≤ (y - 1) / 400 := by omega
    omega
  · rw [if_neg hm, if_neg hm]
    have hera : 4 ≤ y / 400 := by omega
    omega

/-- The timestamp built from the civil reading of a valid timestamp at the
next day and midnight is strictly later than the timestamp itself (the
argument also covers the Date constructor year adjustment for years 0..99,
where the reconstructed instant jumps forward to the 1900s). -/
theorem lt_next_midnight (t : Int) :
    t < tsOf (jsYearAdjust (getFullYear t)) (getMonth t) (getDate t + 1) 0 0 0 := by
  have hzt : 86400 * (t / 86400) ≤ t ∧ t < 86400 * (t / 86400 + 1) := by omega
  unfold getFullYear getMonth getDate jsYearAdjust
  by_cases hadj : 0 ≤ cfdYear (t / 86400) ∧ cfdYear (t / 86400) ≤ 99
  · rw [if_pos hadj]
    obtain ⟨hm1, hm2⟩ := cfdMonth_bounds (t / 86400)
    have hdp := cfdDay_pos (t / 86400)
    have hyoe := hYoe (doeOfZ (t / 86400)) (doeOfZ_lt (t / 86400))
    have hdoe := doeOfZ_lt (t / 86400)
    have hze := doeOfZ_era (t / 86400)
    have hzb : t / 86400 ≤ -573372 := by
      unfold cfdYear at hadj
      have : eraOfZ (t / 86400) ≤ 0 := by
        rcases hadj with ⟨ha, hb⟩
        by_contra hcon
        push_neg at hcon
        split at hb <;> omega
      omega
    have htsf : tsOf (cfdYear (t / 86400) + 1900) (cfdMonth (t / 86400) - 1)
        (cfdDay (t / 86400) + 1) 0 0 0
        = daysFromCivil (cfdYear (t / 86400) + 1900) (cfdMonth (t / 86400))
            (cfdDay (t / 86400) + 1) * 86400 := by
      simp only [tsOf, jsDayNumber]
      have h1 : ((cfdYear (t / 86400) + 1900) * 12 + (cfdMonth (t / 86400) - 1)) / 12
          = cfdYear (t / 86400) + 1900 := by omega
      have h2 : ((cfdYear (t / 86400) + 1900) * 12 + (cfdMonth (t / 86400) - 1)) % 12 + 1
          = cfdMonth (t / 86400) := by omega
      rw [h1, h2]
      ring
    rw [htsf]
    have hlb := daysFromCivil_lb (cfdYear (t / 86400) + 1900) (cfdMonth (t / 86400))
      (cfdDay (t / 86400) + 1) (by omega) (by omega)
    omega
  · rw [if_neg hadj]
    have htsf : tsOf (cfdYear (t / 86400)) (cfdMonth (t / 86400) - 1)
        (cfdDay (t / 86400) + 1) 0 0 0 = (t / 86400 + 1) * 86400 := by
      simp only [tsOf]
      rw [jsDayNumber_day, jsDayNumber_cfd]
      ring
    rw [htsf]
    omega

theorem generateEventsAux_spec (tzValid : String → Bool) (rows : List CsvRow) : ∀ i,
    (generateEventsAux tzValid i rows).1
        = rows.filterMap (fun r => (processRow tzValid r).toOption) ∧
    (generateEventsAux tzValid i rows).2
        = (rowFailures tzValid i rows).map (fun p => rowDiag p.1 p.2.1 p.2.2) ∧
    (generateEventsAux tzValid i rows).1.length + (generateEventsAux tzValid i rows).2.length
        = rows.length := by
  induction rows with
  | nil => intro i; simp [generateEventsAux, rowFailures]
  | cons row rest ih =>
    intro i
    obtain ⟨h1, h2, h3⟩ := ih (i + 1)
    cases hpr : processRow tzValid row with
    | ok e =>
      simp [generateEventsAux, rowFailures, hpr, h1, h2, Except.toOption, ← h3]
      omega
    | error m =>
      simp [generateEventsAux, rowFailures, hpr, h1, h2, Except.toOption, ← h3]
      omega

theorem rowFailures_indices_le (tzValid : String → Bool) (rows : List CsvRow) :
    ∀ i p, p ∈ rowFailures tzValid i rows → i ≤ p.1 := by
  induction rows with
  | nil => intro i p hp; simp [rowFailures] at hp
  | cons row rest ih =>
    intro i p hp
    unfold rowFailures at hp
    cases hpr : processRow tzValid row with
    | ok e =>
      rw [hpr] at hp
      have := ih (i + 1) p hp
      omega
    | error m =>
      rw [hpr] at hp
      rcases List.mem_cons.mp hp with h | h
      · subst h; simp
      · have := ih (i + 1) p h
        omega

theorem rowFailures_indices_sorted (tzValid : String → Bool) (rows : List CsvRow) :
    ∀ i, ((rowFailures tzValid i rows).map (fun p => p.1)).Pairwise (· < ·) := by
  induction rows with
  | nil => intro i; simp [rowFailures]
  | cons row rest ih =>
    intro i
    unfold rowFailures
    cases hpr : processRow tzValid row with
    | ok e => exact ih (i + 1)
    | error m =>
      simp only [List.map_cons, List.pairwise_cons]
      constructor
      · intro j hj
        simp only [List.mem_map] at hj
        obtain ⟨p, hp, hj'⟩ := hj
        have := rowFailures_indices_le tzValid rest (i + 1) p hp
        omega
      · exact ih (i + 1)

theorem digits_not_time (et : String) (h : et.data.all Char.isDigit = true) :
    timeRegexTest et = false := by
  unfold timeRegexTest
  split
  · rename_i h1 h2 m1 m2 heq
    rw [heq] at h
    simp [List.all] at h
  · rename_i h1 h2 m1 m2 s1 s2 heq
    rw [heq] at h
    simp [List.all] at h
  · rfl

theorem setEventEnd_duration_branch (et : String) (s : Int)
    (h1 : et ≠ "") (h2 : timeRegexTest et = false) :
    setEventEnd "" et (some s) false =
      match jsParseInt et with
      | none => .ok none
      | some v =>
        if v < 0 then
          .error ("Invalid duration value from \x27End Time\x27 (" ++ et ++
            "). Must be a non-negative number of minutes.")
        else .ok (mkTs (s + v * 60)) := by
  have hymd : endYmd "" et s = .ok (getFullYear s, getMonth s, getDate s) := by
    unfold endYmd
    rw [if_pos ⟨by decide, h1⟩]
  simp only [setEventEnd]
  rw [if_neg (by simp), hymd]
  show setEventEndBranches "" et s false (getFullYear s) (getMonth s) (getDate s) = _
  unfold setEventEndBranches
  rw [if_neg (by simp), if_neg (by simp [h2]), if_neg (by simp), if_pos ⟨rfl, h1, h2⟩]

theorem setEventEnd_duration_some (et : String) (s v : Int)
    (h1 : et ≠ "") (h2 : timeRegexTest et = false)
    (h3 : jsParseInt et = some v) (h4 : ¬ v < 0) :
    setEventEnd "" et (some s) false = .ok (mkTs (s + v * 60)) := by
  rw [setEventEnd_duration_branch et s h1 h2, h3]
  dsimp only
  rw [if_neg h4]

theorem setEventEnd_duration_negErr (et : String) (s v : Int)
    (h1 : et ≠ "") (h2 : timeRegexTest et = false)
    (h3 : jsParseInt et = some v) (h4 : v < 0) :
    setEventEnd "" et (some s) false =
      .error ("Invalid duration value from \x27End Time\x27 (" ++ et ++
        "). Must be a non-negative number of minutes.") := by
  rw [setEventEnd_duration_branch et s h1 h2, h3]
  dsimp only
  rw [if_pos h4]

/-- C3 evaluation: a non-all-day row with both End Date and End Time empty
does not receive the 60-minute default; setEventEnd throws a format error
while parsing the empty End Date, for every start instant. -/
theorem emptyEnd_formatError (s : Int) :
    setEventEnd "" "" (some s) false
      = .error "Error parsing \x27End Date\x27 format: Unsupported date format: \"\". Expected YYYY-MM-DD, MM/DD/YYYY, DD/MM/YYYY, or YYYY/MM/DD." := by
  rfl

/-- C4: a non-all-day row with an empty End Date whose End Time holds a
non-negative decimal integer resolves to start plus that many minutes, by
pure instant addition; a negative integer raises the fatal non-negative
minutes error. -/
theorem duration_minutes_addition :
    (∀ (s v : Int) (et : String), et ≠ "" → et.data.all Char.isDigit = true →
        jsParseInt et = some v → 0 ≤ v → validTs (s + v * 60) = true →
        setEventEnd "" et (some s) false = .ok (some (s + v * 60))) ∧
    (∀ (s v : Int) (et : String), et ≠ "" → timeRegexTest et = false →
        jsParseInt et = some v → v < 0 →
        setEventEnd "" et (some s) false
          = .error ("Invalid duration value from \x27End Time\x27 (" ++ et ++
              "). Must be a non-negative number of minutes.")) := by
  constructor
  · intro s v et h1 h2 h3 h4 h5
    rw [setEventEnd_duration_some et s v h1 (digits_not_time et h2) h3 (by omega)]
    unfold mkTs
    rw [if_pos h5]
  · intro s v et h1 h2 h3 h4
    exact setEventEnd_duration_negErr et s v h1 h2 h3 h4

/-- C4 witness: start 2025-07-15T23:00:00 with duration 120 yields
2025-07-16T01:00:00 (day rollover), and duration -30 is rejected. -/
theorem duration_minutes_addition_witness :
    setEventEnd "" "120" (some 1752620400) false = .ok (some 1752627600) ∧
    setEventEnd "" "-30" (some 0) false
      = .error "Invalid duration value from \x27End Time\x27 (-30). Must be a non-negative number of minutes." ∧
    tsOf 2025 6 15 23 0 0 = 1752620400 ∧ tsOf 2025 6 16 1 0 0 = 1752627600 := by
  refine ⟨?_, ?_, by decide, by decide⟩
  · have h := duration_minutes_addition.1 1752620400 120 "120" (by decide) (by decide)
      (by decide) (by decide) (by decide)
    rw [show (1752620400 : Int) + 120 * 60 = 1752627600 by norm_num] at h
    exact h
  · exact duration_minutes_addition.2 0 (-30) "-30" (by decide) (by decide) (by decide) (by decide)

/-- C10: when the End Date is empty and the End Time starts with digits but
is neither a clock time nor rejected, the parseInt prefix is used as a
duration in minutes and the rest of the string is ignored; in particular end
time 10:3 adds 10 minutes. -/
theorem parseInt_prefix_duration :
    (∀ (s v : Int) (et : String), et ≠ "" → timeRegexTest et = false →
        jsParseInt et = some v → 0 ≤ v → validTs (s + v * 60) = true →
        setEventEnd "" et (some s) false = .ok (some (s + v * 60))) ∧
    jsParseInt "10:3" = some 10 ∧
    setEventEnd "" "10:3" (some 1752620400) false = .ok (some 1752621000) := by
  refine ⟨?_, by decide, by decide⟩
  intro s v et h1 h2 h3 h4 h5
  rw [setEventEnd_duration_some et s v h1 h2 h3 (by omega)]
  unfold mkTs
  rw [if_pos h5]

/-- C10 witness: the general statement applied to end time 10:3. -/
theorem parseInt_prefix_duration_witness :
    setEventEnd "" "10:3" (some 0) false = .ok (some 600) := by
  have h := parseInt_prefix_duration.1 0 10 "10:3" (by decide) (by decide)
    (by decide) (by decide) (by decide)
  rw [show (0 : Int) + 10 * 60 = 600 by norm_num] at h
  exact h

/-- C8: the dashed YYYY-MM-DD shape is accepted with the month converted to
0-based and no range check; 2025-99-99 passes this stage. -/
theorem dash_date_no_range_check :
    (∀ (s : String) (y mo d : Nat), matchDashYMD s = some (y, mo, d) →
        parseFlexibleDate s = .ok ⟨(y : Int), (mo : Int) - 1, (d : Int)⟩) ∧
    parseFlexibleDate "2025-99-99" = .ok ⟨2025, 98, 99⟩ := by
  constructor
  · intro s y mo d h
    unfold parseFlexibleDate
    rw [h]
  · decide

/-- C8 witness: the general statement applied to 2025-03-30. -/
theorem dash_date_no_range_check_witness :
    parseFlexibleDate "2025-03-30" = .ok ⟨2025, 2, 30⟩ := by
  exact dash_date_no_range_check.1 "2025-03-30" 2025 3 30 (by decide)

theorem matchSlashYMD_dash_none (s : String) (v : Nat × Nat × Nat)
    (h : matchSlashYMD s = some v) : matchDashYMD s = none := by
  unfold matchSlashYMD at h
  split at h
  · rename_i heq
    unfold matchDashYMD
    rw [heq]
    rfl
  · rename_i heq
    unfold matchDashYMD
    rw [heq]
    rfl
  · rename_i heq
    unfold matchDashYMD
    rw [heq]
    rfl
  · rename_i heq
    unfold matchDashYMD
    rw [heq]
    rfl
  · exact Option.noConfusion h

/-- C9: the YYYY/MM/DD shape is range checked; an out-of-range month or day
raises the ComponentError naming the original string. -/
theorem slash_ymd_range_check :
    (∀ (s : String) (y mo d : Nat), matchSlashYMD s = some (y, mo, d) →
        ((mo : Int) - 1 < 0 ∨ 11 < (mo : Int) - 1 ∨ (d : Int) < 1 ∨ 31 < (d : Int)) →
        parseFlexibleDate s = .error ("Invalid month or day value in date: \"" ++ s ++ "\"")) ∧
    parseFlexibleDate "2025/03/32" = .error "Invalid month or day value in date: \"2025/03/32\"" ∧
    parseFlexibleDate "2025/13/29" = .error "Invalid month or day value in date: \"2025/13/29\"" := by
  refine ⟨?_, by decide, by decide⟩
  intro s y mo d h hrange
  unfold parseFlexibleDate
  rw [matchSlashYMD_dash_none s _ h, h]
  dsimp only
  rw [if_pos hrange]

/-- C9 witness: the general statement applied to 2025/03/32. -/
theorem slash_ymd_range_check_witness :
    parseFlexibleDate "2025/03/32" = .error "Invalid month or day value in date: \"2025/03/32\"" := by
  exact slash_ymd_range_check.1 "2025/03/32" 2025 3 32 (by decide) (by decide)

set_option maxHeartbeats 1600000 in
theorem matchSlashDMY_prev_none (s : String) (v : Nat × Nat × Nat)
    (h : matchSlashDMY s = some v) :
    matchDashYMD s = none ∧ matchSlashYMD s = none := by
  unfold matchSlashDMY at h
  split at h
  · rename_i a1 b1 y1 y2 y3 y4 heq
    split at h
    · rename_i hdig
      clear h
      refine ⟨?_, ?_⟩
      · unfold matchDashYMD
        rw [heq]
        split <;> first | rfl | simp_all
      · unfold matchSlashYMD
        rw [heq]
        split <;> first | rfl | simp_all
    · exact Option.noConfusion h
  · rename_i a1 b1 b2 y1 y2 y3 y4 heq
    split at h
    · rename_i hdig
      clear h
      refine ⟨?_, ?_⟩
      · unfold matchDashYMD
        rw [heq]
        split <;> first | rfl | simp_all
      · unfold matchSlashYMD
        rw [heq]
        split <;> first | rfl | simp_all
    · exact Option.noConfusion h
  · rename_i a1 a2 b1 y1 y2 y3 y4 heq
    split at h
    · rename_i hdig
      clear h
      refine ⟨?_, ?_⟩
      · unfold matchDashYMD
        rw [heq]
        split <;> first | rfl | simp_all
      · unfold matchSlashYMD
        rw [heq]
        split <;> first | rfl | simp_all
    · exact Option.noConfusion h
  · rename_i a1 a2 b1 b2 y1 y2 y3 y4 heq
    split at h
    · rename_i hdig
      clear h
      refine ⟨?_, ?_⟩
      · unfold matchDashYMD
        rw [heq]
        split <;> first | rfl | simp_all
      · unfold matchSlashYMD
        rw [heq]
        split <;> first | rfl | simp_all
    · exact Option.noConfusion h
  · exact Option.noConfusion h

/-- C6: the ambiguous slash shape is read as DD/MM/YYYY exactly when the
first group exceeds 12 and the second does not, and as MM/DD/YYYY otherwise,
with the range check applied after disambiguation; both 01/30/2025 and
30/01/2025 denote 30 January 2025 (month 0, day 30). -/
theorem slash_date_heuristic :
    (∀ (s : String) (a b y : Nat), matchSlashDMY s = some (a, b, y) →
        parseFlexibleDate s =
          (let ymd : Int × Int × Int :=
             if 12 < a ∧ b ≤ 12 then ((y : Int), (b : Int) - 1, (a : Int))
             else ((y : Int), (a : Int) - 1, (b : Int));
           if ymd.2.1 < 0 ∨ 11 < ymd.2.1 ∨ ymd.2.2 < 1 ∨ 31 < ymd.2.2 then
             .error ("Invalid month or day value in date: \"" ++ s ++ "\"")
           else .ok ⟨ymd.1, ymd.2.1, ymd.2.2⟩)) ∧
    parseFlexibleDate "01/30/2025" = .ok ⟨2025, 0, 30⟩ ∧
    parseFlexibleDate "30/01/2025" = .ok ⟨2025, 0, 30⟩ := by
  refine ⟨?_, by decide, by decide⟩
  intro s a b y h
  obtain ⟨hdash, hymd⟩ := matchSlashDMY_prev_none s (a, b, y) h
  unfold parseFlexibleDate
  rw [hdash, hymd, h]

/-- C6 witness: the general statement applied to 30/01/2025. -/
theorem slash_date_heuristic_witness :
    parseFlexibleDate "30/01/2025" = .ok ⟨2025, 0, 30⟩ := by
  have h := slash_date_heuristic.1 "30/01/2025" 30 1 2025 (by decide)
  rw [h]
  decide

/-- C7: an explicit end date with a grammar-matching end time whose
constructed instant precedes the start instant is rejected with the ordering
error (surfaced by the source with the explicit-end context prefix); in
particular end 2025-07-15T09:00:00 is rejected against start
2025-07-15T10:00:00. -/
theorem explicit_end_ordering_error :
    (∀ (ed et : String) (s t y mo d : Int) (h mi sec : Option Int),
        allWhitespace ed = false →
        parseFlexibleDate ed = .ok ⟨y, mo, d⟩ →
        timeRegexTest et = true →
        parseTimeComponents et = (h, mi, sec) →
        timeCompInvalid h mi sec = false →
        mkDateC y mo d (h.getD 0) (mi.getD 0) (sec.getD 0) = some t →
        t < s →
        setEventEnd ed et (some s) false =
          .error "Error processing explicit end date and time: End date and time cannot be before the start date and time.") ∧
    setEventEnd "2025-07-15" "09:00" (some 1752573600) false =
      .error "Error processing explicit end date and time: End date and time cannot be before the start date and time." ∧
    tsOf 2025 6 15 10 0 0 = 1752573600 ∧ tsOf 2025 6 15 9 0 0 = 1752570000 := by
  refine ⟨?_, by decide, by decide, by decide⟩
  intro ed et s t y mo d h mi sec hed hp het hcomp hval hmk hlt
  have hne : et ≠ "" := by
    intro he
    rw [he] at het
    exact absurd het (by decide)
  have hymd : endYmd ed et s = .ok (y, mo, d) := by
    unfold endYmd
    rw [if_neg (by simp [hed]), hp]
  simp only [setEventEnd]
  rw [if_neg (by simp), hymd]
  show setEventEndBranches ed et s false y mo d = _
  unfold setEventEndBranches
  rw [if_neg (by simp), if_pos ⟨hne, het⟩, hcomp]
  dsimp only
  rw [if_neg (by simp [hval]), hmk]
  dsimp only
  rw [if_pos hlt]

/-- C7 witness: the general statement applied to end date 2025-07-15 and end
time 11:00 against a later start. -/
theorem explicit_end_ordering_error_witness :
    setEventEnd "2025-07-15" "11:00" (some 1752577300) false =
      .error "Error processing explicit end date and time: End date and time cannot be before the start date and time." := by
  exact explicit_end_ordering_error.1 "2025-07-15" "11:00" 1752577300 1752577200
    2025 6 15 (some 11) (some 0) (some 0) (by decide) (by decide) (by decide) (by decide)
    (by decide) (by decide) (by decide)

/-- C2 evaluation at the failing input: day 30 of February is not rejected;
both the start path and the explicit-end path silently normalize it to
2 March 2025 (the same instant produced by the literal date 2025-03-02),
because a Date built from out-of-range components is not an invalid Date. -/
theorem feb30_not_rejected :
    setEventStart "2025-02-30" "10:00" false = .ok (some 1740909600) ∧
    setEventStart "2025-03-02" "10:00" false = .ok (some 1740909600) ∧
    setEventEnd "2025-02-30" "10:00" (some 1735776000) false = .ok (some 1740909600) := by
  exact ⟨by decide, by decide, by decide⟩

/-- C1 counterexample: an all-day row whose explicit End Date lies before the
Start Date resolves without error to an end instant strictly before the start
instant (start 2025-07-15, end date 2025-01-01, resolved end 2025-01-02). -/
theorem allday_explicit_end_before_start :
    setEventStart "2025-07-15" "All day" true = .ok (some 1752537600) ∧
    setEventEnd "2025-01-01" "" (some 1752537600) true = .ok (some 1735776000) ∧
    (1735776000 : Int) < 1752537600 :=
  ⟨by decide, by decide, by decide⟩

/-- C1 amended: for a row that resolves successfully to valid start and end
instants, end is at least start, provided the resolution does not go through
the all-day-with-explicit-end-date branch (which performs no ordering
check). -/
theorem end_not_before_start (sd st ed et : String) (ad : Bool) (s e : Int)
    (hstart : setEventStart sd st ad = .ok (some s))
    (hend : setEventEnd ed et (some s) ad = .ok (some e))
    (hnb : ¬(ad = true ∧ ed ≠ "")) :
    s ≤ e := by
  clear hstart
  simp only [setEventEnd] at hend
  by_cases h1 : (ad = true ∧ ed = "" ∧ et = "")
  · rw [if_pos h1] at hend
    simp only [Except.ok.injEq] at hend
    unfold mkDateC mkTs at hend
    split at hend
    · simp only [Option.some.injEq] at hend
      have hmid := lt_next_midnight s
      omega
    · exact Option.noConfusion hend
  · rw [if_neg h1] at hend
    cases hy : endYmd ed et s with
    | error m =>
      rw [hy] at hend
      exact Except.noConfusion hend
    | ok ymd =>
      obtain ⟨y, mo, d⟩ := ymd
      rw [hy] at hend
      dsimp only at hend
      unfold setEventEndBranches at hend
      rw [if_neg hnb] at hend
      split at hend
      · -- explicit end date and time branch: guarded by the ordering check
        rcases hpc : parseTimeComponents et with ⟨h, mi, sec⟩
        rw [hpc] at hend
        dsimp only at hend
        split at hend
        · exact Except.noConfusion hend
        · split at hend
          · exact Except.noConfusion hend
          · rename_i t hmk
            split at hend
            · exact Except.noConfusion hend
            · rename_i hts
              simp only [Except.ok.injEq, Option.some.injEq] at hend
              omega
      · split at hend
        · -- end date without time branch: guarded by the ordering check
          split at hend
          · exact Except.noConfusion hend
          · split at hend
            · simp only [Except.ok.injEq] at hend
              exact Option.noConfusion hend
            · rename_i t hmk
              split at hend
              · exact Except.noConfusion hend
              · rename_i hts
                simp only [Except.ok.injEq, Option.some.injEq] at hend
                omega
        · split at hend
          · -- duration branch: a nonnegative number of minutes is added
            split at hend
            · simp only [Except.ok.injEq] at hend
              exact Option.noConfusion hend
            · rename_i v hv
              split at hend
              · exact Except.noConfusion hend
              · rename_i hvneg
                simp only [Except.ok.injEq] at hend
                unfold mkTs at hend
                split at hend
                · simp only [Option.some.injEq] at hend
                  omega
                · exact Option.noConfusion hend
          · -- default branch: 60 minutes are added
            simp only [Except.ok.injEq] at hend
            unfold mkTs at hend
            split at hend
            · simp only [Option.some.injEq] at hend
              omega
            · exact Option.noConfusion hend

/-- C1 witness: a non-all-day row with an explicit later end satisfies the
amended ordering property. -/
theorem end_not_before_start_witness :
    setEventStart "2025-07-15" "10:00" false = .ok (some 1752573600) ∧
    setEventEnd "2025-07-15" "11:00" (some 1752573600) false = .ok (some 1752577200) ∧
    (1752573600 : Int) ≤ 1752577200 := by
  refine ⟨by decide, by decide, ?_⟩
  exact end_not_before_start "2025-07-15" "10:00" "2025-07-15" "11:00" false
    1752573600 1752577200 (by decide) (by decide) (by decide)

/-- C5: generateEvents returns exactly the successfully resolved events in
input row order, emits one diagnostic per failing row carrying that row's
1-based index and subject, never aborts on a failing row, and the failing
row indices are pairwise distinct; event count plus diagnostic count equals
the row count. -/
theorem generateEvents_row_isolation (tzValid : String → Bool) (rows : List CsvRow) :
    (generateEvents tzValid rows).1
        = rows.filterMap (fun r => (processRow tzValid r).toOption) ∧
    (generateEvents tzValid rows).2
        = (rowFailures tzValid 1 rows).map (fun p => rowDiag p.1 p.2.1 p.2.2) ∧
    (generateEvents tzValid rows).2.length = (rowFailures tzValid 1 rows).length ∧
    (generateEvents tzValid rows).1.length
        = rows.length - (rowFailures tzValid 1 rows).length ∧
    ((rowFailures tzValid 1 rows).map (fun p => p.1)).Nodup := by
  unfold generateEvents
  obtain ⟨h1, h2, h3⟩ := generateEventsAux_spec tzValid rows 1
  refine ⟨h1, h2, ?_, ?_, ?_⟩
  · rw [h2, List.length_map]
  · rw [h2, List.length_map] at h3
    omega
  · exact (rowFailures_indices_sorted tzValid rows 1).imp Nat.ne_of_lt
